import Mathlib

/-!
Verification of the SQNet model definition (`src/pytorch/pytorchcv/models/others/_sqnet.py`).

The file gives a shallow embedding of the model's construction and of the shape
semantics of its forward pass, plus a value-level semantics for the two leaf
modules (`FireBlock`, `ParallelDilatedConv`).  Tensor values are modelled over ℤ
(the floating-point numerics of the real library are abstracted away; the
activation function is an abstract parameter `φ` standing for `nn.ELU`).

The building blocks `conv1x1_block`, `conv3x3_block`, `deconv3x3_block`,
`Concurrent` and `Hourglass` are imported by `_sqnet.py` from the repository's
`common.py`, which is not under `src/`; their embeddings below are modelled from
the spec (see the doc comments on each).
-/

namespace SQNetModel

/-- Shape of a 4-d tensor `(batch, channels, height, width)`, as used by the
smoke test's `tuple(y.size())`. -/
structure Shape where
  n : ℕ
  c : ℕ
  h : ℕ
  w : ℕ
deriving DecidableEq, Repr

/-- Modelled from the spec: output length of one spatial dimension of a 2-d
convolution (the "convolution" block of `common.py`, not under `src/`), with
PyTorch's semantics: the padded input must be at least as large as the
effective (dilated) kernel, otherwise the tensor library raises; the output
length is `(h + 2p - (d(k-1)+1))/s + 1` (floor division). -/
def convOutDim (h k s p d : ℕ) : Option ℕ :=
  if d * (k - 1) + 1 ≤ h + 2 * p then some ((h + 2 * p - (d * (k - 1) + 1)) / s + 1) else none

/-- Modelled from the spec: output length of one spatial dimension of a 2-d
max-pooling with no padding: the input must be at least the kernel size,
the output length is `(h - k)/s + 1` (floor division). -/
def maxPoolOutDim (h k s : ℕ) : Option ℕ :=
  if k ≤ h then some ((h - k) / s + 1) else none

/-- Modelled from the spec: output length of one spatial dimension of a 2-d
transposed convolution ("deconvolution"): `(h-1)s - 2p + k + op`, defined when
the input dimension and the resulting output dimension are positive. -/
def deconvOutDim (h k s p op : ℕ) : Option ℕ :=
  if 1 ≤ h ∧ 2 * p + 1 ≤ (h - 1) * s + k + op then
    some ((h - 1) * s + k + op - 2 * p) else none

/-- A convolution block: a `Conv2d` layer followed by optional batch
normalization and an optional activation, as instantiated by `_sqnet.py`.
`withAct` records whether the block was given an activation (`nn.ELU`) or
`activation=None`. -/
structure ConvBlock where
  inC : ℕ
  outC : ℕ
  kernel : ℕ
  stride : ℕ
  padding : ℕ
  dilation : ℕ
  bias : Bool
  useBn : Bool
  withAct : Bool
deriving DecidableEq, Repr

/-- Modelled from the spec: `conv3x3_block` of `common.py` (not under `src/`):
a 3×3 convolution block. -/
def conv3x3_block (inC outC stride padding dilation : ℕ) (bias useBn withAct : Bool) :
    ConvBlock :=
  { inC := inC, outC := outC, kernel := 3, stride := stride, padding := padding,
    dilation := dilation, bias := bias, useBn := useBn, withAct := withAct }

/-- Modelled from the spec: `conv1x1_block` of `common.py` (not under `src/`):
a 1×1 convolution block (no padding, unit stride and dilation). -/
def conv1x1_block (inC outC : ℕ) (bias useBn withAct : Bool) : ConvBlock :=
  { inC := inC, outC := outC, kernel := 1, stride := 1, padding := 0,
    dilation := 1, bias := bias, useBn := useBn, withAct := withAct }

/-- A transposed-convolution block. -/
structure DeconvBlock where
  inC : ℕ
  outC : ℕ
  kernel : ℕ
  stride : ℕ
  padding : ℕ
  outPadding : ℕ
  bias : Bool
  useBn : Bool
  withAct : Bool
deriving DecidableEq, Repr

/-- Modelled from the spec: `deconv3x3_block` of `common.py` (not under `src/`):
a 3×3 transposed-convolution block whose padding and output padding are such
that with stride 2 it exactly doubles the spatial size, mirroring one pooling
halving ("one downsample-pool per encoder stage mirrored by one
upsample-deconvolution per decoder stage"). -/
def deconv3x3_block (inC outC stride : ℕ) (bias useBn withAct : Bool) : DeconvBlock :=
  { inC := inC, outC := outC, kernel := 3, stride := stride, padding := 1,
    outPadding := 1, bias := bias, useBn := useBn, withAct := withAct }

/-- `nn.MaxPool2d` with the given kernel size and stride. -/
structure MaxPool where
  kernel : ℕ
  stride : ℕ
deriving DecidableEq, Repr

/-- Shape semantics of a convolution block: the input channel count must match
the declared `in_channels` (otherwise the tensor library raises); batch and
output-channel dimensions follow the layer, spatial dimensions follow
`convOutDim`.  Batch normalization and the activation do not change shapes. -/
def ConvBlock.shape (b : ConvBlock) (s : Shape) : Option Shape :=
  if s.c = b.inC then
    (convOutDim s.h b.kernel b.stride b.padding b.dilation).bind fun h =>
      (convOutDim s.w b.kernel b.stride b.padding b.dilation).bind fun w =>
        some ⟨s.n, b.outC, h, w⟩
  else none

/-- Shape semantics of a transposed-convolution block. -/
def DeconvBlock.shape (b : DeconvBlock) (s : Shape) : Option Shape :=
  if s.c = b.inC then
    (deconvOutDim s.h b.kernel b.stride b.padding b.outPadding).bind fun h =>
      (deconvOutDim s.w b.kernel b.stride b.padding b.outPadding).bind fun w =>
        some ⟨s.n, b.outC, h, w⟩
  else none

/-- Shape semantics of a max-pooling layer: channels are preserved. -/
def MaxPool.shape (p : MaxPool) (s : Shape) : Option Shape :=
  (maxPoolOutDim s.h p.kernel p.stride).bind fun h =>
    (maxPoolOutDim s.w p.kernel p.stride).bind fun w =>
      some ⟨s.n, s.c, h, w⟩

/-- Modelled from the spec: shape of `torch.cat` of two tensors along the
channel dimension, as performed by `Concurrent(merge_type="cat")` of
`common.py` (not under `src/`) and by the `Hourglass` `"cat"` merge: all
non-channel dimensions must agree, the channel counts add. -/
def catShapes (a b : Shape) : Option Shape :=
  if a.n = b.n ∧ a.h = b.h ∧ a.w = b.w then some ⟨a.n, a.c + b.c, a.h, a.w⟩ else none

/-- Modelled from the spec: shape of the `Concurrent(merge_type="sum")` merge of
`common.py` (not under `src/`): the branch outputs are summed elementwise, so
all their shapes must agree. -/
def sumShapes : List Shape → Option Shape
  | [] => none
  | s :: rest => if rest.all (· = s) then some s else none

/-- The `FireBlock` module of `_sqnet.py`: a squeeze 1×1 convolution block
followed by a two-branch `Concurrent(merge_type="cat")` (a 1×1 and a 3×3
expand convolution block, both with `activation=None`) and a final `nn.ELU`. -/
structure FireBlock where
  conv : ConvBlock
  branch1 : ConvBlock
  branch2 : ConvBlock
deriving DecidableEq, Repr

/-- `FireBlock.__init__`: `squeeze_channels = out_channels // 8`,
`expand_channels = out_channels // 2`; the squeeze block keeps the activation,
the two expand branches are built with `activation=None`. -/
def FireBlock.init (inC outC : ℕ) (bias useBn : Bool) : FireBlock :=
  let squeezeChannels := outC / 8
  let expandChannels := outC / 2
  { conv := conv1x1_block inC squeezeChannels bias useBn true
  , branch1 := conv1x1_block squeezeChannels expandChannels bias useBn false
  , branch2 := conv3x3_block squeezeChannels expandChannels 1 1 1 bias useBn false }

/-- Shape semantics of `FireBlock.forward`: squeeze, the two branches on the
squeeze output, concatenation along channels, then the (shape-preserving)
`nn.ELU`. -/
def FireBlock.shape (f : FireBlock) (s : Shape) : Option Shape :=
  (f.conv.shape s).bind fun s1 =>
    (f.branch1.shape s1).bind fun o1 =>
      (f.branch2.shape s1).bind fun o2 =>
        catShapes o1 o2

/-- The `ParallelDilatedConv` module of `_sqnet.py`: a
`Concurrent(merge_type="sum")` over 3×3 convolution branches. -/
structure ParallelDilatedConv where
  branches : List ConvBlock
deriving DecidableEq, Repr

/-- `ParallelDilatedConv.__init__`: `dilations = [1, 2, 3, 4]`, one 3×3
convolution branch per dilation with `padding=dilation`, each keeping the
activation. -/
def ParallelDilatedConv.init (inC outC : ℕ) (bias useBn : Bool) : ParallelDilatedConv :=
  { branches := [1, 2, 3, 4].map fun d => conv3x3_block inC outC 1 d d bias useBn true }

/-- Shape semantics of `ParallelDilatedConv.forward`: all branches on the same
input, merged by elementwise sum. -/
def ParallelDilatedConv.shape (p : ParallelDilatedConv) (s : Shape) : Option Shape :=
  (p.branches.mapM (fun b => ConvBlock.shape b s)).bind sumShapes

/-- The processing part of `SQNetUpStage`: either a `ParallelDilatedConv` (for
`use_parallel=True`) or a plain 3×3 convolution block. -/
inductive UpConv where
  | par (p : ParallelDilatedConv)
  | plain (c : ConvBlock)
deriving DecidableEq, Repr

/-- Shape semantics of the processing part of `SQNetUpStage`. -/
def UpConv.shape : UpConv → Shape → Option Shape
  | .par p, s => p.shape s
  | .plain c, s => c.shape s

/-- The `SQNetUpStage` module of `_sqnet.py`: a processing convolution
(parallel-dilated or plain, `in_channels → in_channels`) followed by a stride-2
3×3 deconvolution block (`in_channels → out_channels`). -/
structure SQNetUpStage where
  conv : UpConv
  deconv : DeconvBlock
deriving DecidableEq, Repr

/-- `SQNetUpStage.__init__`. -/
def SQNetUpStage.init (inC outC : ℕ) (bias useBn : Bool) (useParallel : Bool) :
    SQNetUpStage :=
  { conv := if useParallel then .par (ParallelDilatedConv.init inC inC bias useBn)
            else .plain (conv3x3_block inC inC 1 1 1 bias useBn true)
  , deconv := deconv3x3_block inC outC 2 bias useBn true }

/-- Shape semantics of `SQNetUpStage.forward`: conv, then deconv. -/
def SQNetUpStage.shape (u : SQNetUpStage) (s : Shape) : Option Shape :=
  (u.conv.shape s).bind u.deconv.shape

/-- One encoder stage of `SQNet`: a `MaxPool2d(kernel_size=2, stride=2)` as its
first unit (`unit1`) followed by the stage's `FireBlock`s. -/
structure DownStage where
  pool : MaxPool
  fires : List FireBlock
deriving DecidableEq, Repr

/-- Shape semantics of one encoder stage: the pool, then the fire blocks in
sequence. -/
def DownStage.shape (st : DownStage) (s : Shape) : Option Shape :=
  (st.pool.shape s).bind fun s1 => st.fires.foldlM (fun t f => FireBlock.shape f t) s1

/-- The `for j in range(layers[i])` loop of `SQNet.__init__`: the fire blocks
of one stage, threading `in_channels = out_channels`; returns the blocks and
the final `in_channels`. -/
def buildFires (inC outC : ℕ) (bias useBn : Bool) : ℕ → List FireBlock × ℕ
  | 0 => ([], inC)
  | j + 1 =>
    let rest := buildFires outC outC bias useBn j
    (FireBlock.init inC outC bias useBn :: rest.1, rest.2)

/-- The `for i, out_channels in enumerate(channels[0])` loop of
`SQNet.__init__`: per stage one skip convolution block (`in_channels →
in_channels`) registered before the stage, and the stage itself (pool +
fire blocks); returns the skip/stage pairs and the final `in_channels`. -/
def buildDown (bias useBn : Bool) : ℕ → List (ℕ × ℕ) → List (ConvBlock × DownStage) × ℕ
  | inC, [] => ([], inC)
  | inC, (outC, nlayers) :: rest =>
    let skip := conv3x3_block inC inC 1 1 1 bias useBn true
    let fires := buildFires inC outC bias useBn nlayers
    let tail := buildDown bias useBn fires.2 rest
    ((skip, ⟨⟨2, 2⟩, fires.1⟩) :: tail.1, tail.2)

/-- The `for i, out_channels in enumerate(channels[1])` loop of
`SQNet.__init__`: up stage `i` has `in_channels = 2 * in_channels`,
`use_parallel = (i == 0)`; returns the stages in construction order (before the
`up_seq = up_seq[::-1]` reversal) and the final `in_channels`. -/
def buildUp (bias useBn : Bool) : ℕ → ℕ → List ℕ → List SQNetUpStage × ℕ
  | _, inC, [] => ([], inC)
  | i, inC, outC :: rest =>
    let stage := SQNetUpStage.init (2 * inC) outC bias useBn (i = 0)
    let tail := buildUp bias useBn (i + 1) outC rest
    (stage :: tail.1, tail.2)

/-- The `SQNet` model: stem, hourglass (encoder stages, skip blocks, decoder
stages in registered order, i.e. `up_seq` after the `[::-1]` reversal), and
head. -/
structure SQNet where
  stem : ConvBlock
  downStages : List DownStage
  skips : List ConvBlock
  ups : List SQNetUpStage
  head : SQNetUpStage
deriving DecidableEq, Repr

/-- `SQNet.__init__`.  The `aux`, `fixed_size` and `in_size` parameters are
accepted and, as in the source, never used. -/
def SQNet.init (aux fixedSize : Bool) (inChannels : ℕ) (inSize : ℕ × ℕ)
    (numClasses : ℕ) : SQNet :=
  let bias := true
  let useBn := false
  let initBlockChannels := 96
  let stem := conv3x3_block inChannels initBlockChannels 2 1 1 bias useBn true
  let channels : List (List ℕ) := [[128, 256, 512], [256, 128, 96]]
  let layers : List ℕ := [2, 2, 3]
  let down := buildDown bias useBn initBlockChannels ((channels.get! 0).zip layers)
  let inC1 := down.2 / 2
  let up := buildUp bias useBn 0 inC1 (channels.get! 1)
  { stem := stem
  , downStages := down.1.map Prod.snd
  , skips := down.1.map Prod.fst
  , ups := up.1.reverse
  , head := SQNetUpStage.init (2 * up.2) numClasses bias useBn false }

/-- `oth_sqnet_cityscapes` with its default arguments (`SQNet` defaults:
`aux=False`, `fixed_size=False`, `in_channels=3`, `in_size=(1024, 2048)`). -/
def oth_sqnet_cityscapes (numClasses : ℕ) : SQNet :=
  SQNet.init false false 3 (1024, 2048) numClasses

/-- Modelled from the spec: the descending half of `Hourglass.forward` of
`common.py` (not under `src/`): the encoder stages are applied in sequence and
every stage *input* is recorded (`down_outs = [x]` then one append per stage),
so the result lists the hourglass input followed by each stage output. -/
def downOuts : Shape → List DownStage → Option (List Shape)
  | s, [] => some [s]
  | s, st :: rest =>
    (st.shape s).bind fun s1 => (downOuts s1 rest).bind fun outs => some (s :: outs)

/-- Modelled from the spec: the ascending half of `Hourglass.forward` of
`common.py` (not under `src/`) with `merge_type="cat"`, written deepest-first:
apply the next decoder stage, apply the skip block to the recorded encoder
tensor, concatenate along channels, and continue; the final concatenation is
returned (it feeds the head).  The decoder stages are passed deepest-first,
i.e. in construction order (the net stores `up_seq` reversed), and the skip
blocks and recorded tensors deepest-first as well — the unique pairing
consistent with the channel counts declared in `_sqnet.py`. -/
def upPass : Shape → List SQNetUpStage → List (ConvBlock × Shape) → Option Shape
  | x, [], [] => some x
  | x, u :: us, (sk, d) :: ps =>
    (u.shape x).bind fun x1 =>
      (sk.shape d).bind fun y =>
        (catShapes x1 y).bind fun m => upPass m us ps
  | _, _, _ => none

/-- Shape semantics of the hourglass of `SQNet`: run the encoder collecting the
recorded tensors, start the decoder from the deepest output, and thread the up
pass over the remaining recorded tensors paired with the skip blocks
(deepest-first). -/
def SQNet.hgShape (net : SQNet) (s : Shape) : Option Shape :=
  (downOuts s net.downStages).bind fun outs =>
    match outs.reverse with
    | [] => none
    | x :: ds => upPass x net.ups.reverse (net.skips.reverse.zip ds)

/-- Shape semantics of `SQNet.forward`: stem, hourglass, head. -/
def SQNet.forward (net : SQNet) (s : Shape) : Option Shape :=
  (net.stem.shape s).bind fun s1 => (net.hgShape s1).bind fun s2 => net.head.shape s2

/-- Instrumented variant of `upPass` that records, for each merge point of the
hourglass, the pair (decoder-stage output shape, skip-block output shape)
presented for concatenation; when a concatenation is impossible (the tensor
library would raise) the offending pair is still recorded and the trace stops
there. -/
def upPassMerges : Shape → List SQNetUpStage → List (ConvBlock × Shape) → List (Shape × Shape)
  | x, u :: us, (sk, d) :: ps =>
    match u.shape x, sk.shape d with
    | some x1, some y =>
      (x1, y) :: (match catShapes x1 y with
        | some m => upPassMerges m us ps
        | none => [])
    | _, _ => []
  | _, _, _ => []

/-- The merge pairs of the hourglass of `SQNet` during a forward pass on a
given model input (the stem is applied first, as in `SQNet.forward`); see
`upPassMerges`. -/
def SQNet.skipMerges (net : SQNet) (s : Shape) : List (Shape × Shape) :=
  match (net.stem.shape s).bind (fun s0 => downOuts s0 net.downStages) with
  | none => []
  | some outs =>
    match outs.reverse with
    | [] => []
    | x :: ds => upPassMerges x net.ups.reverse (net.skips.reverse.zip ds)

/-- One record per tensor fed to a decoder stage (or to the head):
whether it was produced by a channel concatenation, the channel count of the
decoder-path tensor entering the merge point, the channel count of the skip
tensor merged there (if any), and the channel count actually received. -/
structure Feed where
  viaCat : Bool
  upC : ℕ
  skipC : Option ℕ
  recvC : ℕ
deriving DecidableEq, Repr

/-- Instrumented variant of `upPass` recording one `Feed` per merge point: the
concatenation result there is received by the next decoder stage (or, for the
last merge, by the head). -/
def upPassFeeds : Shape → List SQNetUpStage → List (ConvBlock × Shape) →
    Option (List Feed)
  | _, [], [] => some []
  | x, u :: us, (sk, d) :: ps =>
    (u.shape x).bind fun x1 =>
      (sk.shape d).bind fun y =>
        (catShapes x1 y).bind fun m =>
          (upPassFeeds m us ps).bind fun rest =>
            some (⟨true, x1.c, some y.c, m.c⟩ :: rest)
  | _, _, _ => none

/-- The feeds of the decoder stages and head of `SQNet` on a given input: the
deepest decoder stage is fed the last encoder output directly (no
concatenation), each later decoder stage and the head are fed a concatenation
result (see `upPassFeeds`). -/
def SQNet.upFeeds (net : SQNet) (s : Shape) : Option (List Feed) :=
  (net.stem.shape s).bind fun s0 =>
    (downOuts s0 net.downStages).bind fun outs =>
      match outs.reverse with
      | [] => none
      | x :: ds =>
        (upPassFeeds x net.ups.reverse (net.skips.reverse.zip ds)).bind fun feeds =>
          some (⟨false, x.c, none, x.c⟩ :: feeds)

/-- Trainable-parameter shapes of a convolution block: the `Conv2d` weight
`(outC, inC, k, k)`, its bias when `bias=True`, and the batch-normalization
affine weight and bias when `use_bn=True`. -/
def ConvBlock.paramShapes (b : ConvBlock) : List (List ℕ) :=
  [[b.outC, b.inC, b.kernel, b.kernel]] ++ (if b.bias then [[b.outC]] else [])
    ++ (if b.useBn then [[b.outC], [b.outC]] else [])

/-- Trainable-parameter shapes of a transposed-convolution block: the
`ConvTranspose2d` weight `(inC, outC, k, k)`, its bias, and the
batch-normalization parameters when present. -/
def DeconvBlock.paramShapes (b : DeconvBlock) : List (List ℕ) :=
  [[b.inC, b.outC, b.kernel, b.kernel]] ++ (if b.bias then [[b.outC]] else [])
    ++ (if b.useBn then [[b.outC], [b.outC]] else [])

/-- Trainable-parameter shapes of a `FireBlock` (pooling and `nn.ELU` own no
parameters). -/
def FireBlock.paramShapes (f : FireBlock) : List (List ℕ) :=
  f.conv.paramShapes ++ f.branch1.paramShapes ++ f.branch2.paramShapes

/-- Trainable-parameter shapes of a `ParallelDilatedConv`. -/
def ParallelDilatedConv.paramShapes (p : ParallelDilatedConv) : List (List ℕ) :=
  p.branches.flatMap ConvBlock.paramShapes

/-- Trainable-parameter shapes of a `SQNetUpStage`. -/
def SQNetUpStage.paramShapes (u : SQNetUpStage) : List (List ℕ) :=
  (match u.conv with
    | .par p => p.paramShapes
    | .plain c => c.paramShapes) ++ u.deconv.paramShapes

/-- Trainable-parameter shapes of one encoder stage. -/
def DownStage.paramShapes (st : DownStage) : List (List ℕ) :=
  st.fires.flatMap FireBlock.paramShapes

/-- Trainable-parameter shapes of the whole `SQNet` (every parameter of the
model has `requires_grad`). -/
def SQNet.paramShapes (net : SQNet) : List (List ℕ) :=
  net.stem.paramShapes ++ net.downStages.flatMap DownStage.paramShapes
    ++ net.ups.flatMap SQNetUpStage.paramShapes
    ++ net.skips.flatMap ConvBlock.paramShapes
    ++ net.head.paramShapes

/-- `_calc_width`: the sum over all trainable parameters of the product of
their dimension sizes. -/
def calcWidth (net : SQNet) : ℕ :=
  (net.paramShapes.map (fun dims => dims.prod)).sum

/-- A tensor: a shape together with its values, indexed by batch, channel and
(integer, so that zero padding at the border is expressible) spatial
coordinates.  Values are taken in ℤ: the floating-point numerics of the tensor
library are abstracted to an arbitrary ring computation, which is all the
wiring claims need. -/
structure Tensor where
  shape : Shape
  val : ℕ → ℕ → ℤ → ℤ → ℤ

/-- Reading a tensor with zero padding outside its extent. -/
def Tensor.padVal (t : Tensor) (n c : ℕ) (y x : ℤ) : ℤ :=
  if n < t.shape.n ∧ c < t.shape.c ∧ 0 ≤ y ∧ y < (t.shape.h : ℤ) ∧ 0 ≤ x ∧ x < (t.shape.w : ℤ)
  then t.val n c y x else 0

/-- Weights of one convolution layer: the kernel (indexed by output channel,
input channel and the two kernel coordinates) and the bias vector. -/
structure ConvParams where
  w : ℕ → ℕ → ℕ → ℕ → ℤ
  b : ℕ → ℤ

/-- Value of a convolution block at one output coordinate: bias plus the
dilated, strided, zero-padded dot product with the kernel, then the activation
`φ` (standing for `nn.ELU`) when the block has one. -/
def ConvBlock.outVal (blk : ConvBlock) (φ : ℤ → ℤ) (p : ConvParams) (t : Tensor)
    (n o : ℕ) (y x : ℤ) : ℤ :=
  (if blk.withAct then φ else id)
    ((if blk.bias then p.b o else 0) +
      ∑ c ∈ Finset.range blk.inC, ∑ u ∈ Finset.range blk.kernel,
        ∑ v ∈ Finset.range blk.kernel,
          p.w o c u v *
            t.padVal n c (y * (blk.stride : ℤ) - (blk.padding : ℤ) + (u : ℤ) * (blk.dilation : ℤ))
              (x * (blk.stride : ℤ) - (blk.padding : ℤ) + (v : ℤ) * (blk.dilation : ℤ)))

/-- Value semantics of a convolution block: defined exactly when the shape
semantics is. -/
def ConvBlock.forwardVal (blk : ConvBlock) (φ : ℤ → ℤ) (p : ConvParams) (t : Tensor) :
    Option Tensor :=
  (blk.shape t.shape).map fun s => ⟨s, blk.outVal φ p t⟩

/-- Modelled from the spec: values of the `Concurrent(merge_type="cat")` merge
of two branches (`common.py`, not under `src/`): channels of the first branch
first, then those of the second. -/
def catVal (a b : Tensor) : Option Tensor :=
  (catShapes a.shape b.shape).map fun s =>
    ⟨s, fun n c y x => if c < a.shape.c then a.val n c y x else b.val n (c - a.shape.c) y x⟩

/-- Modelled from the spec: values of the `Concurrent(merge_type="sum")` merge
(`common.py`, not under `src/`): the elementwise sum of all branch outputs. -/
def sumVal (outs : List Tensor) : Option Tensor :=
  (sumShapes (outs.map Tensor.shape)).map fun s =>
    ⟨s, fun n c y x => (outs.map (fun t => t.val n c y x)).sum⟩

/-- Applying an elementwise activation to a tensor. -/
def Tensor.mapVal (t : Tensor) (φ : ℤ → ℤ) : Tensor :=
  ⟨t.shape, fun n c y x => φ (t.val n c y x)⟩

/-- Weights of a `FireBlock`: one `ConvParams` per convolution. -/
structure FireParams where
  conv : ConvParams
  branch1 : ConvParams
  branch2 : ConvParams

/-- Value semantics of `FireBlock.forward`: squeeze, the two expand branches on
the squeeze output, concatenation along channels, then the final `nn.ELU`
(abstracted as `φ`). -/
def FireBlock.forwardVal (f : FireBlock) (φ : ℤ → ℤ) (p : FireParams) (t : Tensor) :
    Option Tensor :=
  (f.conv.forwardVal φ p.conv t).bind fun s1 =>
    (f.branch1.forwardVal φ p.branch1 s1).bind fun o1 =>
      (f.branch2.forwardVal φ p.branch2 s1).bind fun o2 =>
        (catVal o1 o2).map fun m => m.mapVal φ

/-- Value semantics of `ParallelDilatedConv.forward`: every branch on the same
input (one `ConvParams` per branch), merged by elementwise sum. -/
def ParallelDilatedConv.forwardVal (pdc : ParallelDilatedConv) (φ : ℤ → ℤ)
    (ps : List ConvParams) (t : Tensor) : Option Tensor :=
  if ps.length = pdc.branches.length then
    ((pdc.branches.zip ps).mapM
      (fun (bp : ConvBlock × ConvParams) => bp.1.forwardVal φ bp.2 t)).bind sumVal
  else none

/-- Output channel count of a `FireBlock`: the concatenation of its two expand
branches. -/
def FireBlock.outChannels (f : FireBlock) : ℕ :=
  f.branch1.outC + f.branch2.outC

/-- Declared input channel count of the processing part of a `SQNetUpStage`
(all branches of a `ParallelDilatedConv` share it). -/
def UpConv.inChannels : UpConv → ℕ
  | .par p => ((p.branches.map ConvBlock.inC).head?).getD 0
  | .plain c => c.inC

/-- All-zero convolution weights, for evaluating the value semantics at a
concrete instance. -/
def zeroConvParams : ConvParams :=
  { w := fun _ _ _ _ => 0, b := fun _ => 0 }

/-- All-zero fire-block weights. -/
def zeroFireParams : FireParams :=
  { conv := zeroConvParams, branch1 := zeroConvParams, branch2 := zeroConvParams }

/-- A concrete all-zero 1-batch, 1-channel, 1x1 tensor. -/
def unitTensor : Tensor :=
  { shape := Shape.mk 1 1 1 1, val := fun _ _ _ _ => 0 }

section Dims

/-- A 1×1 convolution with unit stride, no padding and unit dilation preserves
a positive spatial dimension. -/
theorem convOutDim_one (h : ℕ) (hh : 1 ≤ h) : convOutDim h 1 1 0 1 = some h := by
  unfold convOutDim
  rw [if_pos (by omega)]
  congr 1
  omega

/-- A 3×3 convolution with unit stride and `padding = dilation` preserves a
positive spatial dimension. -/
theorem convOutDim_three (h d : ℕ) (hh : 1 ≤ h) : convOutDim h 3 1 d d = some h := by
  unfold convOutDim
  rw [if_pos (by omega)]
  congr 1
  omega

/-- The stem's 3×3, stride-2, padding-1 convolution exactly halves an even
positive spatial dimension. -/
theorem convOutDim_stride2 (n : ℕ) (hn : 1 ≤ n) : convOutDim (2 * n) 3 2 1 1 = some n := by
  unfold convOutDim
  rw [if_pos (by omega)]
  congr 1
  omega

/-- A 2×2, stride-2 max pool exactly halves an even positive spatial
dimension. -/
theorem maxPoolOutDim_two (n : ℕ) (hn : 1 ≤ n) : maxPoolOutDim (2 * n) 2 2 = some n := by
  unfold maxPoolOutDim
  rw [if_pos (by omega)]
  congr 1
  omega

/-- The 3×3, stride-2, padding-1, output-padding-1 deconvolution exactly
doubles a positive spatial dimension. -/
theorem deconvOutDim_two (h : ℕ) (hh : 1 ≤ h) : deconvOutDim h 3 2 1 1 = some (2 * h) := by
  unfold deconvOutDim
  rw [if_pos (by omega)]
  congr 1
  omega

end Dims

/-- C2: the model constructed by `oth_sqnet_cityscapes` with `num_classes=19`
and default arguments has exactly 16262771 trainable parameters (the sum over
all parameters of the product of their dimension sizes), as asserted by the
smoke test. -/
theorem C2_trainable_parameter_count : calcWidth (oth_sqnet_cityscapes 19) = 16262771 := by
  rfl

/-- C7: the constructed `SQNet` has exactly three encoder stages with 2, 2 and
3 fire blocks whose output channel widths are 128, 128 / 256, 256 / 512, 512,
512 (so the stages produce 128, 256 and 512 channels), decoder stages with
output channel widths 256, 128, 96 in application order, and a stem producing
96 channels. -/
theorem C7_architectural_hyperparameters (a f : Bool) (ic : ℕ) (sz : ℕ × ℕ) (k : ℕ) :
    (SQNet.init a f ic sz k).downStages.length = 3 ∧
    (SQNet.init a f ic sz k).downStages.map (fun st => st.fires.length) = [2, 2, 3] ∧
    (SQNet.init a f ic sz k).downStages.map
        (fun st => st.fires.map FireBlock.outChannels) =
      [[128, 128], [256, 256], [512, 512, 512]] ∧
    (SQNet.init a f ic sz k).ups.reverse.map (fun u => u.deconv.outC) = [256, 128, 96] ∧
    (SQNet.init a f ic sz k).stem.outC = 96 := by
  refine ⟨rfl, rfl, rfl, rfl, rfl⟩

/-- C9: the `aux`, `fixed_size` and `in_size` constructor parameters of `SQNet`
are never used: any two models built with the same `in_channels` and
`num_classes` but arbitrary values of those three parameters are identical as
structures, and in particular have identical forward behaviour on every
input. -/
theorem C9_unused_constructor_parameters (a a' f f' : Bool) (sz sz' : ℕ × ℕ)
    (ic k : ℕ) :
    SQNet.init a f ic sz k = SQNet.init a' f' ic sz' k ∧
    ∀ s, (SQNet.init a f ic sz k).forward s = (SQNet.init a' f' ic sz' k).forward s := by
  exact ⟨rfl, fun s => rfl⟩

section InitFields

/-- The stem of the constructed net. -/
theorem init_stem (a f : Bool) (ic : ℕ) (sz : ℕ × ℕ) (k : ℕ) :
    (SQNet.init a f ic sz k).stem = conv3x3_block ic 96 2 1 1 true false true := by
  rfl

/-- The encoder stages of the constructed net. -/
theorem init_downStages (a f : Bool) (ic : ℕ) (sz : ℕ × ℕ) (k : ℕ) :
    (SQNet.init a f ic sz k).downStages =
      [⟨⟨2, 2⟩, [FireBlock.init 96 128 true false, FireBlock.init 128 128 true false]⟩,
       ⟨⟨2, 2⟩, [FireBlock.init 128 256 true false, FireBlock.init 256 256 true false]⟩,
       ⟨⟨2, 2⟩, [FireBlock.init 256 512 true false, FireBlock.init 512 512 true false,
                 FireBlock.init 512 512 true false]⟩] := by
  rfl

/-- The skip blocks of the constructed net. -/
theorem init_skips (a f : Bool) (ic : ℕ) (sz : ℕ × ℕ) (k : ℕ) :
    (SQNet.init a f ic sz k).skips =
      [conv3x3_block 96 96 1 1 1 true false true,
       conv3x3_block 128 128 1 1 1 true false true,
       conv3x3_block 256 256 1 1 1 true false true] := by
  rfl

/-- The decoder stages of the constructed net, in registered (reversed)
order. -/
theorem init_ups (a f : Bool) (ic : ℕ) (sz : ℕ × ℕ) (k : ℕ) :
    (SQNet.init a f ic sz k).ups =
      [SQNetUpStage.init 256 96 true false false,
       SQNetUpStage.init 512 128 true false false,
       SQNetUpStage.init 512 256 true false true] := by
  simp [SQNet.init, buildDown, buildFires, buildUp]

/-- The head of the constructed net. -/
theorem init_head (a f : Bool) (ic : ℕ) (sz : ℕ × ℕ) (k : ℕ) :
    (SQNet.init a f ic sz k).head = SQNetUpStage.init 192 k true false false := by
  rfl

end InitFields

section StepLemmas

/-- Shape of a 1×1 convolution block on a positive input. -/
theorem conv1x1_block_shape (ci co : ℕ) (b1 b2 b3 : Bool) (b c h w : ℕ)
    (hc : c = ci) (hh : 1 ≤ h) (hw : 1 ≤ w) :
    (conv1x1_block ci co b1 b2 b3).shape ⟨b, c, h, w⟩ = some ⟨b, co, h, w⟩ := by
  subst hc
  simp [ConvBlock.shape, conv1x1_block, convOutDim_one, hh, hw]

/-- Shape of a unit-stride 3×3 convolution block with `padding = dilation` on a
positive input: the spatial size is preserved. -/
theorem conv3x3_block_shape (ci co d : ℕ) (b1 b2 b3 : Bool) (b c h w : ℕ)
    (hc : c = ci) (hh : 1 ≤ h) (hw : 1 ≤ w) :
    (conv3x3_block ci co 1 d d b1 b2 b3).shape ⟨b, c, h, w⟩ = some ⟨b, co, h, w⟩ := by
  subst hc
  simp [ConvBlock.shape, conv3x3_block, convOutDim_three, hh, hw]

/-- Shape of the stride-2 3×3 convolution block (the stem) on an even positive
input: the spatial size is halved. -/
theorem conv3x3_block_stride2_shape (ci co : ℕ) (b1 b2 b3 : Bool) (b c H W h w : ℕ)
    (hc : c = ci) (hH : H = 2 * h) (hW : W = 2 * w) (hh : 1 ≤ h) (hw : 1 ≤ w) :
    (conv3x3_block ci co 2 1 1 b1 b2 b3).shape ⟨b, c, H, W⟩ = some ⟨b, co, h, w⟩ := by
  subst hc hH hW
  simp [ConvBlock.shape, conv3x3_block, convOutDim_stride2, hh, hw]

/-- Shape of the 2×2, stride-2 max pool on an even positive input: the spatial
size is halved, channels are preserved. -/
theorem maxPool_shape_even (b c H W h w : ℕ)
    (hH : H = 2 * h) (hW : W = 2 * w) (hh : 1 ≤ h) (hw : 1 ≤ w) :
    MaxPool.shape ⟨2, 2⟩ ⟨b, c, H, W⟩ = some ⟨b, c, h, w⟩ := by
  subst hH hW
  simp [MaxPool.shape, maxPoolOutDim_two, hh, hw]

/-- Shape of the stride-2 3×3 deconvolution block on a positive input: the
spatial size is doubled. -/
theorem deconv3x3_block_shape (ci co : ℕ) (b1 b2 b3 : Bool) (b c h w H W : ℕ)
    (hc : c = ci) (hH : H = 2 * h) (hW : W = 2 * w) (hh : 1 ≤ h) (hw : 1 ≤ w) :
    (deconv3x3_block ci co 2 b1 b2 b3).shape ⟨b, c, h, w⟩ = some ⟨b, co, H, W⟩ := by
  subst hc hH hW
  simp [DeconvBlock.shape, deconv3x3_block, deconvOutDim_two, hh, hw]

/-- Shape of a fire block on a positive input: the spatial size is preserved
and the two expand branches concatenate to `2 * (outC / 2)` channels. -/
theorem fireBlock_shape (ci co : ℕ) (b c h w co' : ℕ)
    (hc : c = ci) (hh : 1 ≤ h) (hw : 1 ≤ w) (hco : co / 2 + co / 2 = co') :
    (FireBlock.init ci co true false).shape ⟨b, c, h, w⟩ = some ⟨b, co', h, w⟩ := by
  subst hc hco
  simp only [FireBlock.init, FireBlock.shape]
  rw [conv1x1_block_shape _ _ _ _ _ _ _ _ _ rfl hh hw]
  simp only [Option.pure_def, Option.bind_eq_bind, Option.some_bind']
  rw [conv1x1_block_shape _ _ _ _ _ _ _ _ _ rfl hh hw]
  simp only [Option.pure_def, Option.bind_eq_bind, Option.some_bind']
  rw [conv3x3_block_shape _ _ _ _ _ _ _ _ _ _ rfl hh hw]
  simp only [Option.pure_def, Option.bind_eq_bind, Option.some_bind']
  simp [catShapes]

/-- Shape of a parallel dilated convolution on a positive input: every branch
preserves the spatial size and the merge is their common shape. -/
theorem parallelDilatedConv_shape (ci co : ℕ) (b c h w : ℕ)
    (hc : c = ci) (hh : 1 ≤ h) (hw : 1 ≤ w) :
    (ParallelDilatedConv.init ci co true false).shape ⟨b, c, h, w⟩ = some ⟨b, co, h, w⟩ := by
  subst hc
  simp only [ParallelDilatedConv.init, ParallelDilatedConv.shape, List.map_cons,
    List.map_nil, List.mapM_cons, List.mapM_nil]
  rw [conv3x3_block_shape _ _ _ _ _ _ _ _ _ _ rfl hh hw,
    conv3x3_block_shape _ _ _ _ _ _ _ _ _ _ rfl hh hw,
    conv3x3_block_shape _ _ _ _ _ _ _ _ _ _ rfl hh hw,
    conv3x3_block_shape _ _ _ _ _ _ _ _ _ _ rfl hh hw]
  simp [sumShapes]

/-- Shape of a decoder stage on a positive input: the processing convolution
preserves the spatial size, the deconvolution doubles it. -/
theorem sqnetUpStage_shape (ci co : ℕ) (par : Bool) (b c h w H W : ℕ)
    (hc : c = ci) (hH : H = 2 * h) (hW : W = 2 * w) (hh : 1 ≤ h) (hw : 1 ≤ w) :
    (SQNetUpStage.init ci co true false par).shape ⟨b, c, h, w⟩ = some ⟨b, co, H, W⟩ := by
  subst hc
  cases par with
  | true =>
    simp only [SQNetUpStage.init, SQNetUpStage.shape, UpConv.shape, reduceIte]
    rw [parallelDilatedConv_shape _ _ _ _ _ _ rfl hh hw]
    simp only [Option.pure_def, Option.bind_eq_bind, Option.some_bind']
    exact deconv3x3_block_shape _ _ _ _ _ _ _ _ _ _ _ rfl hH hW hh hw
  | false =>
    simp only [SQNetUpStage.init, SQNetUpStage.shape, UpConv.shape, Bool.false_eq_true,
      if_false, reduceIte]
    rw [conv3x3_block_shape _ _ _ _ _ _ _ _ _ _ rfl hh hw]
    simp only [Option.pure_def, Option.bind_eq_bind, Option.some_bind']
    exact deconv3x3_block_shape _ _ _ _ _ _ _ _ _ _ _ rfl hH hW hh hw

/-- Shape of the concatenation of two tensors agreeing outside the channel
dimension. -/
theorem catShapes_same (b c1 c2 h w c3 : ℕ) (hc : c1 + c2 = c3) :
    catShapes ⟨b, c1, h, w⟩ ⟨b, c2, h, w⟩ = some ⟨b, c3, h, w⟩ := by
  subst hc
  simp [catShapes]

end StepLemmas

section ChainLemmas

/-- Shape of the first encoder stage on an even positive input. -/
theorem downStage1_shape (b H W h w : ℕ)
    (hH : H = 2 * h) (hW : W = 2 * w) (hh : 1 ≤ h) (hw : 1 ≤ w) :
    DownStage.shape
      (DownStage.mk (MaxPool.mk 2 2) [FireBlock.init 96 128 true false, FireBlock.init 128 128 true false])
      (Shape.mk b 96 H W) = some (Shape.mk b 128 h w) := by
  simp only [DownStage.shape]
  rw [maxPool_shape_even _ _ _ _ _ _ hH hW hh hw]
  simp only [Option.pure_def, Option.bind_eq_bind, Option.some_bind', List.foldlM_cons, List.foldlM_nil]
  rw [fireBlock_shape 96 128 b 96 h w 128 rfl hh hw (by norm_num)]
  simp only [Option.pure_def, Option.bind_eq_bind, Option.some_bind']
  rw [fireBlock_shape 128 128 b 128 h w 128 rfl hh hw (by norm_num)]
  rfl

/-- Shape of the second encoder stage on an even positive input. -/
theorem downStage2_shape (b H W h w : ℕ)
    (hH : H = 2 * h) (hW : W = 2 * w) (hh : 1 ≤ h) (hw : 1 ≤ w) :
    DownStage.shape
      (DownStage.mk (MaxPool.mk 2 2) [FireBlock.init 128 256 true false, FireBlock.init 256 256 true false])
      (Shape.mk b 128 H W) = some (Shape.mk b 256 h w) := by
  simp only [DownStage.shape]
  rw [maxPool_shape_even _ _ _ _ _ _ hH hW hh hw]
  simp only [Option.pure_def, Option.bind_eq_bind, Option.some_bind', List.foldlM_cons, List.foldlM_nil]
  rw [fireBlock_shape 128 256 b 128 h w 256 rfl hh hw (by norm_num)]
  simp only [Option.pure_def, Option.bind_eq_bind, Option.some_bind']
  rw [fireBlock_shape 256 256 b 256 h w 256 rfl hh hw (by norm_num)]
  rfl

/-- Shape of the third encoder stage on an even positive input. -/
theorem downStage3_shape (b H W h w : ℕ)
    (hH : H = 2 * h) (hW : W = 2 * w) (hh : 1 ≤ h) (hw : 1 ≤ w) :
    DownStage.shape
      (DownStage.mk (MaxPool.mk 2 2) [FireBlock.init 256 512 true false, FireBlock.init 512 512 true false,
                FireBlock.init 512 512 true false])
      (Shape.mk b 256 H W) = some (Shape.mk b 512 h w) := by
  simp only [DownStage.shape]
  rw [maxPool_shape_even _ _ _ _ _ _ hH hW hh hw]
  simp only [Option.pure_def, Option.bind_eq_bind, Option.some_bind', List.foldlM_cons, List.foldlM_nil]
  rw [fireBlock_shape 256 512 b 256 h w 512 rfl hh hw (by norm_num)]
  simp only [Option.pure_def, Option.bind_eq_bind, Option.some_bind']
  rw [fireBlock_shape 512 512 b 512 h w 512 rfl hh hw (by norm_num)]
  simp only [Option.pure_def, Option.bind_eq_bind, Option.some_bind']
  rw [fireBlock_shape 512 512 b 512 h w 512 rfl hh hw (by norm_num)]
  rfl

/-- The encoder pass on a stem output of spatial size `8m x 8m'`: the recorded
tensors are the stage inputs, halving the spatial size and widening the
channels at each stage. -/
theorem downOuts_mul8 (b m m' : ℕ) (hm : 1 ≤ m) (hm' : 1 ≤ m') :
    downOuts (Shape.mk b 96 (8 * m) (8 * m'))
      [DownStage.mk (MaxPool.mk 2 2) [FireBlock.init 96 128 true false, FireBlock.init 128 128 true false],
       DownStage.mk (MaxPool.mk 2 2) [FireBlock.init 128 256 true false, FireBlock.init 256 256 true false],
       DownStage.mk (MaxPool.mk 2 2) [FireBlock.init 256 512 true false, FireBlock.init 512 512 true false,
                 FireBlock.init 512 512 true false]] =
    some [Shape.mk b 96 (8 * m) (8 * m'), Shape.mk b 128 (4 * m) (4 * m'),
          Shape.mk b 256 (2 * m) (2 * m'), Shape.mk b 512 m m'] := by
  simp only [downOuts]
  rw [downStage1_shape b _ _ (4 * m) (4 * m') (by ring) (by ring) (by omega) (by omega)]
  simp only [Option.pure_def, Option.bind_eq_bind, Option.some_bind']
  rw [downStage2_shape b _ _ (2 * m) (2 * m') (by ring) (by ring) (by omega) (by omega)]
  simp only [Option.pure_def, Option.bind_eq_bind, Option.some_bind']
  rw [downStage3_shape b _ _ m m' (by ring) (by ring) hm hm']
  rfl

/-- The decoder pass from the bottleneck (spatial size `m x m'`, 512 channels):
each decoder stage doubles the spatial size, each merge concatenates a skip
tensor of equal shape, and the final concatenation has 192 channels at the stem
resolution. -/
theorem upPass_mul8 (b m m' : ℕ) (hm : 1 ≤ m) (hm' : 1 ≤ m') :
    upPass (Shape.mk b 512 m m')
      [SQNetUpStage.init 512 256 true false true,
       SQNetUpStage.init 512 128 true false false,
       SQNetUpStage.init 256 96 true false false]
      [(conv3x3_block 256 256 1 1 1 true false true, Shape.mk b 256 (2 * m) (2 * m')),
       (conv3x3_block 128 128 1 1 1 true false true, Shape.mk b 128 (4 * m) (4 * m')),
       (conv3x3_block 96 96 1 1 1 true false true, Shape.mk b 96 (8 * m) (8 * m'))] =
    some (Shape.mk b 192 (8 * m) (8 * m')) := by
  simp only [upPass]
  rw [sqnetUpStage_shape 512 256 true b 512 m m' (2 * m) (2 * m') rfl rfl rfl hm hm']
  simp only [Option.pure_def, Option.bind_eq_bind, Option.some_bind']
  rw [conv3x3_block_shape 256 256 1 true false true b 256 (2 * m) (2 * m') rfl
    (by omega) (by omega)]
  simp only [Option.pure_def, Option.bind_eq_bind, Option.some_bind']
  rw [catShapes_same b 256 256 (2 * m) (2 * m') 512 (by norm_num)]
  simp only [Option.pure_def, Option.bind_eq_bind, Option.some_bind']
  rw [sqnetUpStage_shape 512 128 false b 512 (2 * m) (2 * m') (4 * m) (4 * m') rfl
    (by ring) (by ring) (by omega) (by omega)]
  simp only [Option.pure_def, Option.bind_eq_bind, Option.some_bind']
  rw [conv3x3_block_shape 128 128 1 true false true b 128 (4 * m) (4 * m') rfl
    (by omega) (by omega)]
  simp only [Option.pure_def, Option.bind_eq_bind, Option.some_bind']
  rw [catShapes_same b 128 128 (4 * m) (4 * m') 256 (by norm_num)]
  simp only [Option.pure_def, Option.bind_eq_bind, Option.some_bind']
  rw [sqnetUpStage_shape 256 96 false b 256 (4 * m) (4 * m') (8 * m) (8 * m') rfl
    (by ring) (by ring) (by omega) (by omega)]
  simp only [Option.pure_def, Option.bind_eq_bind, Option.some_bind']
  rw [conv3x3_block_shape 96 96 1 true false true b 96 (8 * m) (8 * m') rfl
    (by omega) (by omega)]
  simp only [Option.pure_def, Option.bind_eq_bind, Option.some_bind']
  rw [catShapes_same b 96 96 (8 * m) (8 * m') 192 (by norm_num)]
  rfl

/-- The forward pass of the constructed net on any input whose spatial size is
a positive multiple of 16 in both dimensions succeeds and reproduces the input
spatial size with `num_classes` channels. -/
theorem forward_mul16 (a f : Bool) (sz : ℕ × ℕ) (k b m m' : ℕ)
    (hm : 1 ≤ m) (hm' : 1 ≤ m') :
    (SQNet.init a f 3 sz k).forward (Shape.mk b 3 (16 * m) (16 * m')) =
      some (Shape.mk b k (16 * m) (16 * m')) := by
  simp only [SQNet.forward, SQNet.hgShape, init_stem, init_downStages, init_skips,
    init_ups, init_head]
  rw [conv3x3_block_stride2_shape 3 96 true false true b 3 (16 * m) (16 * m')
    (8 * m) (8 * m') rfl (by ring) (by ring) (by omega) (by omega)]
  simp only [Option.pure_def, Option.bind_eq_bind, Option.some_bind']
  rw [downOuts_mul8 b m m' hm hm']
  simp only [Option.some_bind', List.reverse_cons, List.reverse_nil, List.nil_append,
    List.cons_append, List.zip_cons_cons, List.zip_nil_right, List.zip_nil_left]
  rw [upPass_mul8 b m m' hm hm']
  simp only [Option.pure_def, Option.bind_eq_bind, Option.some_bind']
  exact sqnetUpStage_shape 192 k false b 192 (8 * m) (8 * m') (16 * m) (16 * m') rfl
    (by ring) (by ring) (by omega) (by omega)

end ChainLemmas

section InversionLemmas

/-- Inversion for a unit-stride 3x3 convolution block with `padding =
dilation`: success forces the declared input channels and a positive input, and
the spatial size is preserved. -/
theorem conv3x3_block_shape_inv (ci co d : ℕ) (b1 b2 b3 : Bool) (s t : Shape)
    (h : (conv3x3_block ci co 1 d d b1 b2 b3).shape s = some t) :
    s.c = ci ∧ 1 ≤ s.h ∧ 1 ≤ s.w ∧ t = Shape.mk s.n co s.h s.w := by
  simp only [ConvBlock.shape, conv3x3_block, convOutDim, Option.ite_none_right_eq_some,
    Option.bind_eq_some', Option.some.injEq] at h
  obtain ⟨hc, a1, ⟨hg1, he1⟩, a2, ⟨hg2, he2⟩, ht⟩ := h
  subst ht
  refine ⟨hc, by omega, by omega, ?_⟩
  have e1 : a1 = s.h := by omega
  have e2 : a2 = s.w := by omega
  rw [e1, e2]

/-- Inversion for a 1x1 convolution block: success forces the declared input
channels and a positive input, and the spatial size is preserved. -/
theorem conv1x1_block_shape_inv (ci co : ℕ) (b1 b2 b3 : Bool) (s t : Shape)
    (h : (conv1x1_block ci co b1 b2 b3).shape s = some t) :
    s.c = ci ∧ 1 ≤ s.h ∧ 1 ≤ s.w ∧ t = Shape.mk s.n co s.h s.w := by
  simp only [ConvBlock.shape, conv1x1_block, convOutDim, Option.ite_none_right_eq_some,
    Option.bind_eq_some', Option.some.injEq] at h
  obtain ⟨hc, a1, ⟨hg1, he1⟩, a2, ⟨hg2, he2⟩, ht⟩ := h
  subst ht
  refine ⟨hc, by omega, by omega, ?_⟩
  have e1 : a1 = s.h := by omega
  have e2 : a2 = s.w := by omega
  rw [e1, e2]

/-- Inversion for the stride-2 3x3 convolution block (the stem): success forces
the declared input channels and a positive input, and each spatial dimension
becomes `(d - 1) / 2 + 1`. -/
theorem conv3x3_block_stride2_shape_inv (ci co : ℕ) (b1 b2 b3 : Bool) (s t : Shape)
    (h : (conv3x3_block ci co 2 1 1 b1 b2 b3).shape s = some t) :
    s.c = ci ∧ 1 ≤ s.h ∧ 1 ≤ s.w ∧
      t = Shape.mk s.n co ((s.h - 1) / 2 + 1) ((s.w - 1) / 2 + 1) := by
  simp only [ConvBlock.shape, conv3x3_block, convOutDim, Option.ite_none_right_eq_some,
    Option.bind_eq_some', Option.some.injEq] at h
  obtain ⟨hc, a1, ⟨hg1, he1⟩, a2, ⟨hg2, he2⟩, ht⟩ := h
  subst ht
  refine ⟨hc, by omega, by omega, ?_⟩
  have e1 : a1 = (s.h - 1) / 2 + 1 := by omega
  have e2 : a2 = (s.w - 1) / 2 + 1 := by omega
  rw [e1, e2]

/-- Inversion for the 2x2 stride-2 max pool: success forces a spatial size of
at least 2 and halves it (floor). -/
theorem maxPool_shape_inv (s t : Shape) (h : MaxPool.shape (MaxPool.mk 2 2) s = some t) :
    2 ≤ s.h ∧ 2 ≤ s.w ∧ t = Shape.mk s.n s.c (s.h / 2) (s.w / 2) := by
  simp only [MaxPool.shape, maxPoolOutDim, Option.ite_none_right_eq_some,
    Option.bind_eq_some', Option.some.injEq] at h
  obtain ⟨a1, ⟨hg1, he1⟩, a2, ⟨hg2, he2⟩, ht⟩ := h
  subst ht
  refine ⟨hg1, hg2, ?_⟩
  have e1 : a1 = s.h / 2 := by omega
  have e2 : a2 = s.w / 2 := by omega
  rw [e1, e2]

/-- Inversion for the stride-2 3x3 deconvolution block: success forces the
declared input channels and a positive input, and doubles the spatial size. -/
theorem deconv3x3_block_shape_inv (ci co : ℕ) (b1 b2 b3 : Bool) (s t : Shape)
    (h : (deconv3x3_block ci co 2 b1 b2 b3).shape s = some t) :
    s.c = ci ∧ 1 ≤ s.h ∧ 1 ≤ s.w ∧ t = Shape.mk s.n co (2 * s.h) (2 * s.w) := by
  simp only [DeconvBlock.shape, deconv3x3_block, deconvOutDim, Option.ite_none_right_eq_some,
    Option.bind_eq_some', Option.some.injEq] at h
  obtain ⟨hc, a1, ⟨⟨hp1, hg1⟩, he1⟩, a2, ⟨⟨hp2, hg2⟩, he2⟩, ht⟩ := h
  subst ht
  refine ⟨hc, hp1, hp2, ?_⟩
  have e1 : a1 = 2 * s.h := by omega
  have e2 : a2 = 2 * s.w := by omega
  rw [e1, e2]

/-- Inversion for the channel concatenation: success forces agreement of all
non-channel dimensions and adds the channel counts. -/
theorem catShapes_inv (x y t : Shape) (h : catShapes x y = some t) :
    x.n = y.n ∧ x.h = y.h ∧ x.w = y.w ∧ t = Shape.mk x.n (x.c + y.c) x.h x.w := by
  simp only [catShapes, Option.ite_none_right_eq_some, Option.some.injEq] at h
  obtain ⟨⟨h1, h2, h3⟩, ht⟩ := h
  exact ⟨h1, h2, h3, ht.symm⟩

/-- Inversion for a fire block: success forces the declared input channels and
a positive input; the output has `outC/2 + outC/2` channels at the same
spatial size. -/
theorem fireBlock_shape_inv (ci co : ℕ) (s t : Shape)
    (h : (FireBlock.init ci co true false).shape s = some t) :
    s.c = ci ∧ 1 ≤ s.h ∧ 1 ≤ s.w ∧
      t = Shape.mk s.n (co / 2 + co / 2) s.h s.w := by
  simp only [FireBlock.init, FireBlock.shape, Option.bind_eq_some'] at h
  obtain ⟨s1, hs1, o1, ho1, o2, ho2, hcat⟩ := h
  obtain ⟨hc, hh, hw, hts1⟩ := conv1x1_block_shape_inv _ _ _ _ _ _ _ hs1
  subst hts1
  obtain ⟨hc1, hh1, hw1, hto1⟩ := conv1x1_block_shape_inv _ _ _ _ _ _ _ ho1
  subst hto1
  obtain ⟨hc2, hh2, hw2, hto2⟩ := conv3x3_block_shape_inv _ _ _ _ _ _ _ _ ho2
  subst hto2
  obtain ⟨hn, hhh, hww, ht⟩ := catShapes_inv _ _ _ hcat
  subst ht
  exact ⟨hc, hh, hw, rfl⟩

/-- Inversion for the parallel dilated convolution: success forces the declared
input channels and a positive input, and preserves the spatial size. -/
theorem parallelDilatedConv_shape_inv (ci co : ℕ) (s t : Shape)
    (h : (ParallelDilatedConv.init ci co true false).shape s = some t) :
    s.c = ci ∧ 1 ≤ s.h ∧ 1 ≤ s.w ∧ t = Shape.mk s.n co s.h s.w := by
  simp only [ParallelDilatedConv.init, ParallelDilatedConv.shape, List.map_cons,
    List.map_nil, List.mapM_cons, List.mapM_nil, Option.pure_def, Option.bind_eq_bind,
    Option.bind_eq_some', Option.some.injEq] at h
  obtain ⟨os, ⟨o1, ho1, os2, ⟨o2, ho2, os3, ⟨o3, ho3, os4,
    ⟨o4, ho4, os5, hnil, hcons4⟩, hcons3⟩, hcons2⟩, hcons1⟩, hsum⟩ := h
  subst hnil
  subst hcons4
  subst hcons3
  subst hcons2
  subst hcons1
  obtain ⟨hc, hh, hw, ht1⟩ := conv3x3_block_shape_inv _ _ _ _ _ _ _ _ ho1
  subst ht1
  simp only [sumShapes, List.all_cons, List.all_nil, Bool.and_true, Bool.and_eq_true,
    decide_eq_true_eq, Option.ite_none_right_eq_some, Option.some.injEq] at hsum
  obtain ⟨⟨h2, h3, h4⟩, ht⟩ := hsum
  exact ⟨hc, hh, hw, ht.symm⟩

/-- Inversion for a decoder stage: success forces the declared input channels
and a positive input, and doubles the spatial size. -/
theorem sqnetUpStage_shape_inv (ci co : ℕ) (par : Bool) (s t : Shape)
    (h : (SQNetUpStage.init ci co true false par).shape s = some t) :
    s.c = ci ∧ 1 ≤ s.h ∧ 1 ≤ s.w ∧ t = Shape.mk s.n co (2 * s.h) (2 * s.w) := by
  cases par with
  | true =>
    simp only [SQNetUpStage.init, SQNetUpStage.shape, UpConv.shape, reduceIte,
      Option.bind_eq_some'] at h
    obtain ⟨s1, hs1, hdec⟩ := h
    obtain ⟨hc, hh, hw, ht1⟩ := parallelDilatedConv_shape_inv _ _ _ _ hs1
    subst ht1
    obtain ⟨hc2, hh2, hw2, ht⟩ := deconv3x3_block_shape_inv _ _ _ _ _ _ _ hdec
    subst ht
    exact ⟨hc, hh, hw, rfl⟩
  | false =>
    simp only [SQNetUpStage.init, SQNetUpStage.shape, UpConv.shape, Bool.false_eq_true,
      if_false, reduceIte, Option.bind_eq_some'] at h
    obtain ⟨s1, hs1, hdec⟩ := h
    obtain ⟨hc, hh, hw, ht1⟩ := conv3x3_block_shape_inv _ _ _ _ _ _ _ _ hs1
    subst ht1
    obtain ⟨hc2, hh2, hw2, ht⟩ := deconv3x3_block_shape_inv _ _ _ _ _ _ _ hdec
    subst ht
    exact ⟨hc, hh, hw, rfl⟩

/-- Inversion for an encoder stage with two fire blocks: success forces the
first fire block's declared input channels, a spatial size of at least 2, and
the stage halves the spatial size. -/
theorem downStage2_shape_inv (ci c1 : ℕ) (s t : Shape)
    (h : DownStage.shape
      (DownStage.mk (MaxPool.mk 2 2)
        [FireBlock.init ci c1 true false, FireBlock.init c1 c1 true false]) s = some t) :
    s.c = ci ∧ 2 ≤ s.h ∧ 2 ≤ s.w ∧
      t = Shape.mk s.n (c1 / 2 + c1 / 2) (s.h / 2) (s.w / 2) := by
  simp only [DownStage.shape, List.foldlM_cons, List.foldlM_nil, Option.pure_def,
    Option.bind_eq_bind, Option.bind_eq_some', Option.some.injEq] at h
  obtain ⟨p, hp, q1, hf1, q2, hf2, hq⟩ := h
  obtain ⟨hh2, hw2, hps⟩ := maxPool_shape_inv _ _ hp
  subst hps
  obtain ⟨hc1, hh1, hw1, hq1⟩ := fireBlock_shape_inv _ _ _ _ hf1
  subst hq1
  obtain ⟨hc2, hh3, hw3, hq2⟩ := fireBlock_shape_inv _ _ _ _ hf2
  subst hq2
  subst hq
  exact ⟨hc1, hh2, hw2, rfl⟩

/-- Inversion for an encoder stage with three fire blocks: success forces the
first fire block's declared input channels, a spatial size of at least 2, and
the stage halves the spatial size. -/
theorem downStage3_shape_inv (ci c1 : ℕ) (s t : Shape)
    (h : DownStage.shape
      (DownStage.mk (MaxPool.mk 2 2)
        [FireBlock.init ci c1 true false, FireBlock.init c1 c1 true false,
         FireBlock.init c1 c1 true false]) s = some t) :
    s.c = ci ∧ 2 ≤ s.h ∧ 2 ≤ s.w ∧
      t = Shape.mk s.n (c1 / 2 + c1 / 2) (s.h / 2) (s.w / 2) := by
  simp only [DownStage.shape, List.foldlM_cons, List.foldlM_nil, Option.pure_def,
    Option.bind_eq_bind, Option.bind_eq_some', Option.some.injEq] at h
  obtain ⟨p, hp, q1, hf1, q2, hf2, q3, hf3, hq⟩ := h
  obtain ⟨hh2, hw2, hps⟩ := maxPool_shape_inv _ _ hp
  subst hps
  obtain ⟨hc1, hh1, hw1, hq1⟩ := fireBlock_shape_inv _ _ _ _ hf1
  subst hq1
  obtain ⟨hc2, hh3, hw3, hq2⟩ := fireBlock_shape_inv _ _ _ _ hf2
  subst hq2
  obtain ⟨hc3, hh4, hw4, hq3⟩ := fireBlock_shape_inv _ _ _ _ hf3
  subst hq3
  subst hq
  exact ⟨hc1, hh2, hw2, rfl⟩

end InversionLemmas

/-- The merge trace of the constructed net on an input whose spatial size is a
positive multiple of 16: every decoder-stage output meets a skip tensor of
exactly equal shape. -/
theorem skipMerges_mul16 (a f : Bool) (sz : ℕ × ℕ) (k b m m' : ℕ)
    (hm : 1 ≤ m) (hm' : 1 ≤ m') :
    (SQNet.init a f 3 sz k).skipMerges (Shape.mk b 3 (16 * m) (16 * m')) =
      [(Shape.mk b 256 (2 * m) (2 * m'), Shape.mk b 256 (2 * m) (2 * m')),
       (Shape.mk b 128 (4 * m) (4 * m'), Shape.mk b 128 (4 * m) (4 * m')),
       (Shape.mk b 96 (8 * m) (8 * m'), Shape.mk b 96 (8 * m) (8 * m'))] := by
  simp only [SQNet.skipMerges, init_stem, init_downStages, init_skips, init_ups]
  rw [conv3x3_block_stride2_shape 3 96 true false true b 3 (16 * m) (16 * m')
    (8 * m) (8 * m') rfl (by ring) (by ring) (by omega) (by omega)]
  simp only [Option.some_bind']
  rw [downOuts_mul8 b m m' hm hm']
  simp only [List.reverse_cons, List.reverse_nil, List.nil_append, List.cons_append,
    List.zip_cons_cons, List.zip_nil_right, List.zip_nil_left]
  simp only [upPassMerges]
  rw [sqnetUpStage_shape 512 256 true b 512 m m' (2 * m) (2 * m') rfl rfl rfl hm hm']
  rw [conv3x3_block_shape 256 256 1 true false true b 256 (2 * m) (2 * m') rfl
    (by omega) (by omega)]
  dsimp only
  rw [catShapes_same b 256 256 (2 * m) (2 * m') 512 (by norm_num)]
  dsimp only
  rw [sqnetUpStage_shape 512 128 false b 512 (2 * m) (2 * m') (4 * m) (4 * m') rfl
    (by ring) (by ring) (by omega) (by omega)]
  rw [conv3x3_block_shape 128 128 1 true false true b 128 (4 * m) (4 * m') rfl
    (by omega) (by omega)]
  dsimp only
  rw [catShapes_same b 128 128 (4 * m) (4 * m') 256 (by norm_num)]
  dsimp only
  rw [sqnetUpStage_shape 256 96 false b 256 (4 * m) (4 * m') (8 * m) (8 * m') rfl
    (by ring) (by ring) (by omega) (by omega)]
  rw [conv3x3_block_shape 96 96 1 true false true b 96 (8 * m) (8 * m') rfl
    (by omega) (by omega)]
  dsimp only
  rw [catShapes_same b 96 96 (8 * m) (8 * m') 192 (by norm_num)]

/-- Inversion of a whole forward pass whose output spatial size equals the
input spatial size: every pooling was applied to an even dimension and the
input spatial dimensions are positive multiples of 16. -/
theorem forward_matching_inv (a f : Bool) (sz : ℕ × ℕ) (k b H W : ℕ) (r : Shape)
    (hfwd : (SQNet.init a f 3 sz k).forward (Shape.mk b 3 H W) = some r)
    (hmh : r.h = H) (hmw : r.w = W) :
    16 ∣ H ∧ 16 ∣ W ∧ 0 < H ∧ 0 < W := by
  simp only [SQNet.forward, SQNet.hgShape, init_stem, init_downStages, init_skips,
    init_ups, init_head, downOuts, Option.pure_def, Option.bind_eq_bind,
    Option.bind_eq_some', Option.some.injEq] at hfwd
  obtain ⟨s0, hstem, u, ⟨outs, ⟨o1, hst1, l2, ⟨o2, hst2, l3,
    ⟨o3, hst3, l4, hl4, hl3⟩, hl2⟩, houts⟩, hmatch⟩, hhead⟩ := hfwd
  subst hl4
  subst hl3
  subst hl2
  subst houts
  obtain ⟨hc0, hH1, hW1, hs0⟩ := conv3x3_block_stride2_shape_inv _ _ _ _ _ _ _ hstem
  subst hs0
  dsimp only at hst1 hmatch
  obtain ⟨hc1, hh1, hw1, ho1⟩ := downStage2_shape_inv _ _ _ _ hst1
  subst ho1
  dsimp only at hst2 hmatch hh1 hw1
  obtain ⟨hc2, hh2, hw2, ho2⟩ := downStage2_shape_inv _ _ _ _ hst2
  subst ho2
  dsimp only at hst3 hmatch hh2 hw2
  obtain ⟨hc3, hh3, hw3, ho3⟩ := downStage3_shape_inv _ _ _ _ hst3
  subst ho3
  dsimp only at hmatch hh3 hw3
  simp only [List.reverse_cons, List.reverse_nil, List.nil_append, List.cons_append,
    List.zip_cons_cons, List.zip_nil_right, upPass, Option.bind_eq_some',
    Option.some.injEq] at hmatch
  obtain ⟨x1, hx1, y3, hy3, m1, hm1, x2, hx2, y2, hy2, m2, hm2,
    x3, hx3, y1, hy1, m3, hm3, hu⟩ := hmatch
  subst hu
  obtain ⟨hcx1, hhx1, hwx1, hx1e⟩ := sqnetUpStage_shape_inv _ _ _ _ _ hx1
  subst hx1e
  obtain ⟨hcy3, hhy3, hwy3, hy3e⟩ := conv3x3_block_shape_inv _ _ _ _ _ _ _ _ hy3
  subst hy3e
  obtain ⟨hn1, hh1c, hw1c, hm1e⟩ := catShapes_inv _ _ _ hm1
  subst hm1e
  dsimp only at hx2 hh1c hw1c
  obtain ⟨hcx2, hhx2, hwx2, hx2e⟩ := sqnetUpStage_shape_inv _ _ _ _ _ hx2
  subst hx2e
  obtain ⟨hcy2, hhy2, hwy2, hy2e⟩ := conv3x3_block_shape_inv _ _ _ _ _ _ _ _ hy2
  subst hy2e
  obtain ⟨hn2, hh2c, hw2c, hm2e⟩ := catShapes_inv _ _ _ hm2
  subst hm2e
  dsimp only at hx3 hh2c hw2c
  obtain ⟨hcx3, hhx3, hwx3, hx3e⟩ := sqnetUpStage_shape_inv _ _ _ _ _ hx3
  subst hx3e
  obtain ⟨hcy1, hhy1, hwy1, hy1e⟩ := conv3x3_block_shape_inv _ _ _ _ _ _ _ _ hy1
  subst hy1e
  obtain ⟨hn3, hh3c, hw3c, hm3e⟩ := catShapes_inv _ _ _ hm3
  subst hm3e
  dsimp only at hhead hh3c hw3c
  obtain ⟨hcu, hhu, hwu, hre⟩ := sqnetUpStage_shape_inv _ _ _ _ _ hhead
  subst hre
  dsimp only at hmh hmw
  refine ⟨?_, ?_, ?_, ?_⟩ <;> omega




/-- C1 counterexample: on a `17 x 17` input (not a multiple of 16) the forward
pass of the constructed model does not return a `(1, 19, 17, 17)` tensor; the
final skip concatenation is impossible and the tensor library raises,
modelled as `none`. -/
theorem C1_counterexample_forward_fails_at_17 :
    (oth_sqnet_cityscapes 19).forward (Shape.mk 1 3 17 17) = none := by
  decide

/-- C1 (amended): for every input batch tensor of shape `(batch, 3, H, W)`
with `H` and `W` positive multiples of 16, the forward pass of a `SQNet`
constructed with a given `num_classes` returns a tensor of shape
`(batch, num_classes, H, W)`. -/
theorem C1_output_resolution_matches_input (a f : Bool) (sz : ℕ × ℕ)
    (k b H W : ℕ) (hH : 16 ∣ H) (hW : 16 ∣ W) (hH0 : 0 < H) (hW0 : 0 < W) :
    (SQNet.init a f 3 sz k).forward (Shape.mk b 3 H W) = some (Shape.mk b k H W) := by
  obtain ⟨m, rfl⟩ := hH
  obtain ⟨m', rfl⟩ := hW
  exact forward_mul16 a f sz k b m m' (by omega) (by omega)

/-- C1 witness: the smoke test's configuration (batch 4, `1024 x 2048`,
19 classes). -/
theorem C1_witness_smoke_test_shape :
    (oth_sqnet_cityscapes 19).forward (Shape.mk 4 3 1024 2048) =
      some (Shape.mk 4 19 1024 2048) :=
  C1_output_resolution_matches_input false false (1024, 2048) 19 4 1024 2048
    (by norm_num) (by norm_num) (by norm_num) (by norm_num)

/-- C3 counterexample: on a `17 x 17` input the third skip tensor (`9 x 9`,
from the stem output) does not match the decoder stage output (`8 x 8`) it is
merged into: the downsample-pool floors odd sizes, so the mirror guarantee
fails off multiples of 16. -/
theorem C3_counterexample_skip_mismatch_at_17 :
    (oth_sqnet_cityscapes 19).skipMerges (Shape.mk 1 3 17 17) =
      [(Shape.mk 1 256 2 2, Shape.mk 1 256 2 2),
       (Shape.mk 1 128 4 4, Shape.mk 1 128 4 4),
       (Shape.mk 1 96 8 8, Shape.mk 1 96 9 9)] ∧
    ¬ (∀ p ∈ (oth_sqnet_cityscapes 19).skipMerges (Shape.mk 1 3 17 17),
      p.1.h = p.2.h ∧ p.1.w = p.2.w) := by
  exact ⟨by decide, by decide⟩

/-- C3 (amended): in the constructed hourglass every encoder stage has the
2x2 stride-2 max pool as its (first and only) spatial downsampler - its fire
blocks are unit-stride and spatial-size-preserving - and every decoder stage
(and the head) has the stride-2 deconvolution as its only upsampler; for every
input whose spatial dimensions are positive multiples of 16, every skip tensor
exactly matches the decoder-stage output it is merged into. -/
theorem C3_mirrored_sampling_and_skip_match (a f : Bool) (sz : ℕ × ℕ) (k : ℕ) :
    (∀ st ∈ (SQNet.init a f 3 sz k).downStages,
        st.pool = MaxPool.mk 2 2 ∧
        ∀ fb ∈ st.fires,
          fb.conv.stride = 1 ∧ fb.branch1.stride = 1 ∧ fb.branch2.stride = 1 ∧
          2 * fb.conv.padding = fb.conv.dilation * (fb.conv.kernel - 1) ∧
          2 * fb.branch1.padding = fb.branch1.dilation * (fb.branch1.kernel - 1) ∧
          2 * fb.branch2.padding = fb.branch2.dilation * (fb.branch2.kernel - 1)) ∧
    (∀ u ∈ (SQNet.init a f 3 sz k).ups, u.deconv.stride = 2) ∧
    (SQNet.init a f 3 sz k).head.deconv.stride = 2 ∧
    (∀ b m m' : ℕ, 1 ≤ m → 1 ≤ m' →
      ∀ p ∈ (SQNet.init a f 3 sz k).skipMerges (Shape.mk b 3 (16 * m) (16 * m')),
        p.1.h = p.2.h ∧ p.1.w = p.2.w ∧ p.1.c = p.2.c) := by
  refine ⟨?_, ?_, ?_, ?_⟩
  · rw [init_downStages]
    decide
  · rw [init_ups]
    decide
  · rw [init_head]
    rfl
  · intro b m m' hm hm' p hp
    rw [skipMerges_mul16 a f sz k b m m' hm hm'] at hp
    simp only [List.mem_cons, List.not_mem_nil, or_false] at hp
    rcases hp with h | h | h <;> subst h <;> exact ⟨rfl, rfl, rfl⟩

/-- C3 witness: on a `16 x 16` input, the first merge pair of the constructed
model is two `2 x 2`, 256-channel tensors, and the amended theorem confirms
they match. -/
theorem C3_witness_first_merge_matches :
    (Shape.mk 1 256 (2 * 1) (2 * 1), Shape.mk 1 256 (2 * 1) (2 * 1)) ∈
      (SQNet.init false false 3 (1024, 2048) 19).skipMerges
        (Shape.mk 1 3 (16 * 1) (16 * 1)) ∧
    ((Shape.mk 1 256 (2 * 1) (2 * 1), Shape.mk 1 256 (2 * 1) (2 * 1)).1.h =
      (Shape.mk 1 256 (2 * 1) (2 * 1), Shape.mk 1 256 (2 * 1) (2 * 1)).2.h ∧
     (Shape.mk 1 256 (2 * 1) (2 * 1), Shape.mk 1 256 (2 * 1) (2 * 1)).1.w =
      (Shape.mk 1 256 (2 * 1) (2 * 1), Shape.mk 1 256 (2 * 1) (2 * 1)).2.w ∧
     (Shape.mk 1 256 (2 * 1) (2 * 1), Shape.mk 1 256 (2 * 1) (2 * 1)).1.c =
      (Shape.mk 1 256 (2 * 1) (2 * 1), Shape.mk 1 256 (2 * 1) (2 * 1)).2.c) :=
  ⟨by decide,
   (C3_mirrored_sampling_and_skip_match false false (1024, 2048) 19).2.2.2
     1 1 1 (by norm_num) (by norm_num) _ (by decide)⟩

/-- C8: the forward pass performs no error handling: it returns a tensor
exactly when the stem, the hourglass and the head all succeed in sequence, so
any stage's failure (a shape mismatch raised by the tensor library) propagates
unchanged to the caller. -/
theorem C8_failure_propagates_unchanged (net : SQNet) (s r : Shape) :
    net.forward s = some r ↔
      ∃ t u, net.stem.shape s = some t ∧ net.hgShape t = some u ∧
        net.head.shape u = some r := by
  simp only [SQNet.forward, Option.bind_eq_some']
  constructor
  · rintro ⟨t, ht, u, hu, hr⟩
    exact ⟨t, u, ht, hu, hr⟩
  · rintro ⟨t, u, ht, hu, hr⟩
    exact ⟨t, ht, u, hu, hr⟩

/-- C10 counterexample: on a `31 x 31` input the forward pass *succeeds*
although 31 is not a multiple of 16 - the output is `32 x 32`, no longer the
input resolution. -/
theorem C10_counterexample_success_at_31 :
    (oth_sqnet_cityscapes 19).forward (Shape.mk 1 3 31 31) =
      some (Shape.mk 1 19 32 32) ∧ ¬ (16 ∣ 31) := by
  exact ⟨by decide, by decide⟩

/-- C10 (amended): the forward pass succeeds *with an output whose spatial
resolution equals the input's* only when the input's spatial height and width
are each positive multiples of 16: the stem's stride-2 convolution and the
three stride-2 max pools halve the spatial size four times, and each halving
must be exactly inverted by one of the four stride-2 deconvolutions. -/
theorem C10_matching_output_needs_multiple_of_16 (a f : Bool) (sz : ℕ × ℕ)
    (k b H W : ℕ) (r : Shape)
    (hfwd : (SQNet.init a f 3 sz k).forward (Shape.mk b 3 H W) = some r)
    (hmh : r.h = H) (hmw : r.w = W) :
    16 ∣ H ∧ 16 ∣ W ∧ 0 < H ∧ 0 < W :=
  forward_matching_inv a f sz k b H W r hfwd hmh hmw

/-- C10 witness: the smoke test's resolution `1024 x 2048` is reproduced by
the forward pass, and the amended theorem confirms both dimensions are
positive multiples of 16. -/
theorem C10_witness_smoke_test_divisibility :
    16 ∣ 1024 ∧ 16 ∣ 2048 ∧ 0 < 1024 ∧ 0 < 2048 :=
  C10_matching_output_needs_multiple_of_16 false false (1024, 2048) 19 1 1024 2048
    (Shape.mk 1 19 1024 2048) (by decide) rfl rfl

/-- C4 counterexample: it is not the case that every `SQNetUpStage` (and the
head) receives a concatenation of twice the channel count of its decoder-path
predecessor: the deepest decoder stage is fed the final encoder output
(512 channels) directly, with no concatenation and no doubling. -/
theorem C4_counterexample_deepest_stage_not_concatenated :
    (oth_sqnet_cityscapes 19).upFeeds (Shape.mk 1 3 1024 2048) =
      some [Feed.mk false 512 none 512, Feed.mk true 256 (some 256) 512,
            Feed.mk true 128 (some 128) 256, Feed.mk true 96 (some 96) 192] ∧
    ¬ (∀ e ∈ [Feed.mk false 512 none 512, Feed.mk true 256 (some 256) 512,
              Feed.mk true 128 (some 128) 256, Feed.mk true 96 (some 96) 192],
        e.viaCat = true ∧ e.skipC = some e.upC ∧ e.recvC = 2 * e.upC) := by
  exact ⟨by decide, by decide⟩

/-- C4 (amended): in the constructed `SQNet` every layer's input channel count
equals the channel count produced by its predecessor (the forward pass on the
reference resolution is accepted by every layer); every `SQNetUpStage` *other
than the deepest*, and the head, receive exactly twice the channel count of
the corresponding decoder-path tensor because the hourglass concatenates it
with a skip tensor of equal channel count; the deepest decoder stage receives
the final encoder output (512 channels, written `2 * 256` by the constructor)
directly, without a concatenation. -/
theorem C4_channel_bookkeeping (a f : Bool) (sz : ℕ × ℕ) (k : ℕ) :
    (∀ b, (SQNet.init a f 3 sz k).forward (Shape.mk b 3 1024 2048) =
      some (Shape.mk b k 1024 2048)) ∧
    ((oth_sqnet_cityscapes 19).upFeeds (Shape.mk 1 3 1024 2048) =
      some [Feed.mk false 512 none 512, Feed.mk true 256 (some 256) 512,
            Feed.mk true 128 (some 128) 256, Feed.mk true 96 (some 96) 192]) ∧
    (∀ e ∈ [Feed.mk true 256 (some 256) 512, Feed.mk true 128 (some 128) 256,
            Feed.mk true 96 (some 96) 192],
        e.viaCat = true ∧ e.skipC = some e.upC ∧ e.recvC = 2 * e.upC) ∧
    (SQNet.init a f 3 sz k).ups.reverse.map (fun u => u.conv.inChannels) =
      [512, 512, 256] ∧
    (SQNet.init a f 3 sz k).head.conv.inChannels = 192 := by
  refine ⟨fun b => ?_, by decide, by decide, ?_, ?_⟩
  · have h1 : (1024 : ℕ) = 16 * 64 := by norm_num
    have h2 : (2048 : ℕ) = 16 * 128 := by norm_num
    rw [h1, h2]
    exact forward_mul16 a f sz k b 64 128 (by omega) (by omega)
  · rw [init_ups]
    rfl
  · rw [init_head]
    rfl


/-- C5: the `ParallelDilatedConv` module consists of exactly four parallel 3x3
unit-stride convolution branches with dilation rates 1, 2, 3, 4, each with
`padding = dilation` (so the spatial size is preserved), each mapping
`in_channels` to `out_channels`; its output is the elementwise sum of the four
branch outputs. -/
theorem C5_parallel_dilated_conv (inC outC : ℕ) (b1 b2 : Bool) (φ : ℤ → ℤ)
    (p1 p2 p3 p4 : ConvParams) (t : Tensor)
    (hc : t.shape.c = inC) (hh : 1 ≤ t.shape.h) (hw : 1 ≤ t.shape.w) :
    (ParallelDilatedConv.init inC outC b1 b2).branches.map (fun br => br.dilation) =
      [1, 2, 3, 4] ∧
    (∀ br ∈ (ParallelDilatedConv.init inC outC b1 b2).branches,
        br.kernel = 3 ∧ br.stride = 1 ∧ br.padding = br.dilation ∧
        br.inC = inC ∧ br.outC = outC) ∧
    ∃ out, (ParallelDilatedConv.init inC outC b1 b2).forwardVal φ [p1, p2, p3, p4] t =
        some out ∧
      out.shape = Shape.mk t.shape.n outC t.shape.h t.shape.w ∧
      ∀ n c y x, out.val n c y x =
        (conv3x3_block inC outC 1 1 1 b1 b2 true).outVal φ p1 t n c y x +
        (conv3x3_block inC outC 1 2 2 b1 b2 true).outVal φ p2 t n c y x +
        (conv3x3_block inC outC 1 3 3 b1 b2 true).outVal φ p3 t n c y x +
        (conv3x3_block inC outC 1 4 4 b1 b2 true).outVal φ p4 t n c y x := by
  obtain ⟨⟨n, c, h, w⟩, v⟩ := t
  dsimp only at hc hh hw ⊢
  have hb1 : (conv3x3_block inC outC 1 1 1 b1 b2 true).forwardVal φ p1
      (Tensor.mk (Shape.mk n c h w) v) =
      some (Tensor.mk (Shape.mk n outC h w)
        ((conv3x3_block inC outC 1 1 1 b1 b2 true).outVal φ p1
          (Tensor.mk (Shape.mk n c h w) v))) := by
    simp only [ConvBlock.forwardVal]
    rw [conv3x3_block_shape inC outC 1 b1 b2 true n c h w hc hh hw]
    rfl
  have hb2 : (conv3x3_block inC outC 1 2 2 b1 b2 true).forwardVal φ p2
      (Tensor.mk (Shape.mk n c h w) v) =
      some (Tensor.mk (Shape.mk n outC h w)
        ((conv3x3_block inC outC 1 2 2 b1 b2 true).outVal φ p2
          (Tensor.mk (Shape.mk n c h w) v))) := by
    simp only [ConvBlock.forwardVal]
    rw [conv3x3_block_shape inC outC 2 b1 b2 true n c h w hc hh hw]
    rfl
  have hb3 : (conv3x3_block inC outC 1 3 3 b1 b2 true).forwardVal φ p3
      (Tensor.mk (Shape.mk n c h w) v) =
      some (Tensor.mk (Shape.mk n outC h w)
        ((conv3x3_block inC outC 1 3 3 b1 b2 true).outVal φ p3
          (Tensor.mk (Shape.mk n c h w) v))) := by
    simp only [ConvBlock.forwardVal]
    rw [conv3x3_block_shape inC outC 3 b1 b2 true n c h w hc hh hw]
    rfl
  have hb4 : (conv3x3_block inC outC 1 4 4 b1 b2 true).forwardVal φ p4
      (Tensor.mk (Shape.mk n c h w) v) =
      some (Tensor.mk (Shape.mk n outC h w)
        ((conv3x3_block inC outC 1 4 4 b1 b2 true).outVal φ p4
          (Tensor.mk (Shape.mk n c h w) v))) := by
    simp only [ConvBlock.forwardVal]
    rw [conv3x3_block_shape inC outC 4 b1 b2 true n c h w hc hh hw]
    rfl
  refine ⟨rfl, ?_, ?_⟩
  · intro br hbr
    simp only [ParallelDilatedConv.init, List.map_cons, List.map_nil, List.mem_cons,
      List.not_mem_nil, or_false] at hbr
    rcases hbr with h1 | h1 | h1 | h1 <;> subst h1 <;>
      exact ⟨rfl, rfl, rfl, rfl, rfl⟩
  · simp only [ParallelDilatedConv.forwardVal, ParallelDilatedConv.init,
      List.map_cons, List.map_nil, List.length_cons, List.length_nil, reduceIte,
      List.zip_cons_cons, List.zip_nil_right, List.mapM_cons, List.mapM_nil,
      Option.pure_def, Option.bind_eq_bind, hb1, hb2, hb3, hb4, Option.some_bind']
    simp only [sumVal, sumShapes, List.map_cons, List.map_nil, List.all_cons,
      List.all_nil, decide_eq_true_eq, Bool.and_true, Bool.and_eq_true, and_self,
      reduceIte, if_true, Option.map_some, Option.some.injEq]
    refine ⟨_, rfl, rfl, ?_⟩
    intro nn cc yy xx
    dsimp only
    simp only [List.sum_cons, List.sum_nil]
    ring


/-- C5 witness: a concrete instance (1 input channel, 8 output channels, zero
weights, identity activation, all-zero 1x1 input), obtained from the C5
theorem. -/
theorem C5_witness_concrete_instance :
    ∃ out, (ParallelDilatedConv.init 1 8 true false).forwardVal (fun z => z)
        [zeroConvParams, zeroConvParams, zeroConvParams, zeroConvParams] unitTensor =
        some out ∧
      out.shape = Shape.mk unitTensor.shape.n 8 unitTensor.shape.h unitTensor.shape.w ∧
      ∀ n c y x, out.val n c y x =
        (conv3x3_block 1 8 1 1 1 true false true).outVal (fun z => z) zeroConvParams
          unitTensor n c y x +
        (conv3x3_block 1 8 1 2 2 true false true).outVal (fun z => z) zeroConvParams
          unitTensor n c y x +
        (conv3x3_block 1 8 1 3 3 true false true).outVal (fun z => z) zeroConvParams
          unitTensor n c y x +
        (conv3x3_block 1 8 1 4 4 true false true).outVal (fun z => z) zeroConvParams
          unitTensor n c y x :=
  (C5_parallel_dilated_conv 1 8 true false (fun z => z) zeroConvParams zeroConvParams
    zeroConvParams zeroConvParams unitTensor rfl (by decide) (by decide)).2.2

/-- C6: the `FireBlock` applies a squeeze 1x1 convolution reducing the channel
count to `out_channels / 8`, then two parallel expand convolutions (a 1x1 and
a 3x3, both without their own activation), each producing `out_channels / 2`
channels, concatenated along the channel dimension and passed through the
final `nn.ELU` (abstracted as `φ`); for every even `out_channels` the output
has exactly `out_channels` channels. -/
theorem C6_fire_block (inC outC : ℕ) (φ : ℤ → ℤ) (p : FireParams) (t : Tensor)
    (hc : t.shape.c = inC) (hh : 1 ≤ t.shape.h) (hw : 1 ≤ t.shape.w)
    (he : outC % 2 = 0) :
    (FireBlock.init inC outC true false).conv.kernel = 1 ∧
    (FireBlock.init inC outC true false).conv.inC = inC ∧
    (FireBlock.init inC outC true false).conv.outC = outC / 8 ∧
    (FireBlock.init inC outC true false).branch1.kernel = 1 ∧
    (FireBlock.init inC outC true false).branch2.kernel = 3 ∧
    (FireBlock.init inC outC true false).branch1.outC = outC / 2 ∧
    (FireBlock.init inC outC true false).branch2.outC = outC / 2 ∧
    (FireBlock.init inC outC true false).branch1.withAct = false ∧
    (FireBlock.init inC outC true false).branch2.withAct = false ∧
    ∃ out, (FireBlock.init inC outC true false).forwardVal φ p t = some out ∧
      out.shape = Shape.mk t.shape.n outC t.shape.h t.shape.w ∧
      ∀ n c y x, out.val n c y x =
        φ (if c < outC / 2
           then (conv1x1_block (outC / 8) (outC / 2) true false false).outVal φ p.branch1
                  (Tensor.mk (Shape.mk t.shape.n (outC / 8) t.shape.h t.shape.w)
                    ((conv1x1_block inC (outC / 8) true false true).outVal φ p.conv t))
                  n c y x
           else (conv3x3_block (outC / 8) (outC / 2) 1 1 1 true false false).outVal φ
                  p.branch2
                  (Tensor.mk (Shape.mk t.shape.n (outC / 8) t.shape.h t.shape.w)
                    ((conv1x1_block inC (outC / 8) true false true).outVal φ p.conv t))
                  n (c - outC / 2) y x) := by
  obtain ⟨⟨n, c, h, w⟩, v⟩ := t
  dsimp only at hc hh hw ⊢
  have hsq : (conv1x1_block inC (outC / 8) true false true).forwardVal φ p.conv
      (Tensor.mk (Shape.mk n c h w) v) =
      some (Tensor.mk (Shape.mk n (outC / 8) h w)
        ((conv1x1_block inC (outC / 8) true false true).outVal φ p.conv
          (Tensor.mk (Shape.mk n c h w) v))) := by
    simp only [ConvBlock.forwardVal]
    rw [conv1x1_block_shape inC (outC / 8) true false true n c h w hc hh hw]
    rfl
  have hb1 : (conv1x1_block (outC / 8) (outC / 2) true false false).forwardVal φ p.branch1
      (Tensor.mk (Shape.mk n (outC / 8) h w)
        ((conv1x1_block inC (outC / 8) true false true).outVal φ p.conv
          (Tensor.mk (Shape.mk n c h w) v))) =
      some (Tensor.mk (Shape.mk n (outC / 2) h w)
        ((conv1x1_block (outC / 8) (outC / 2) true false false).outVal φ p.branch1
          (Tensor.mk (Shape.mk n (outC / 8) h w)
            ((conv1x1_block inC (outC / 8) true false true).outVal φ p.conv
              (Tensor.mk (Shape.mk n c h w) v))))) := by
    simp only [ConvBlock.forwardVal]
    rw [conv1x1_block_shape (outC / 8) (outC / 2) true false false n (outC / 8) h w
      rfl hh hw]
    rfl
  have hb2 : (conv3x3_block (outC / 8) (outC / 2) 1 1 1 true false false).forwardVal φ
      p.branch2
      (Tensor.mk (Shape.mk n (outC / 8) h w)
        ((conv1x1_block inC (outC / 8) true false true).outVal φ p.conv
          (Tensor.mk (Shape.mk n c h w) v))) =
      some (Tensor.mk (Shape.mk n (outC / 2) h w)
        ((conv3x3_block (outC / 8) (outC / 2) 1 1 1 true false false).outVal φ p.branch2
          (Tensor.mk (Shape.mk n (outC / 8) h w)
            ((conv1x1_block inC (outC / 8) true false true).outVal φ p.conv
              (Tensor.mk (Shape.mk n c h w) v))))) := by
    simp only [ConvBlock.forwardVal]
    rw [conv3x3_block_shape (outC / 8) (outC / 2) 1 true false false n (outC / 8) h w
      rfl hh hw]
    rfl
  refine ⟨rfl, rfl, rfl, rfl, rfl, rfl, rfl, rfl, rfl, ?_⟩
  simp only [FireBlock.forwardVal, FireBlock.init, hsq, Option.some_bind', hb1, hb2]
  simp only [catVal, catShapes]
  simp only [and_self, reduceIte, if_true, Option.map_some, Option.some.injEq,
    Tensor.mapVal]
  refine ⟨_, rfl, ?_, ?_⟩
  · dsimp only
    have hco : outC / 2 + outC / 2 = outC := by omega
    rw [hco]
  · intro nn cc yy xx
    dsimp only


/-- C6 witness: a concrete instance (1 input channel, 8 output channels, zero
weights, identity activation, all-zero 1x1 input), obtained from the C6
theorem. -/
theorem C6_witness_concrete_instance :
    ∃ out, (FireBlock.init 1 8 true false).forwardVal (fun z => z) zeroFireParams
        unitTensor = some out ∧
      out.shape = Shape.mk unitTensor.shape.n 8 unitTensor.shape.h unitTensor.shape.w ∧
      ∀ n c y x, out.val n c y x =
        (fun z => z : ℤ → ℤ) (if c < 8 / 2
           then (conv1x1_block (8 / 8) (8 / 2) true false false).outVal (fun z => z)
                  zeroFireParams.branch1
                  (Tensor.mk (Shape.mk unitTensor.shape.n (8 / 8) unitTensor.shape.h
                      unitTensor.shape.w)
                    ((conv1x1_block 1 (8 / 8) true false true).outVal (fun z => z)
                      zeroFireParams.conv unitTensor))
                  n c y x
           else (conv3x3_block (8 / 8) (8 / 2) 1 1 1 true false false).outVal (fun z => z)
                  zeroFireParams.branch2
                  (Tensor.mk (Shape.mk unitTensor.shape.n (8 / 8) unitTensor.shape.h
                      unitTensor.shape.w)
                    ((conv1x1_block 1 (8 / 8) true false true).outVal (fun z => z)
                      zeroFireParams.conv unitTensor))
                  n (c - 8 / 2) y x) :=
  (C6_fire_block 1 8 (fun z => z) zeroFireParams unitTensor rfl (by decide) (by decide)
    (by decide)).2.2.2.2.2.2.2.2.2

end SQNetModel
